import Mathlib

/-!
# Verification of the Furdarius/csrf double-submit CSRF middleware

Shallow embedding of the Go package `csrf` (files `csrf.go`, `token.go`,
`options.go`) and proofs about it.

Modelling conventions:
* Go byte slices are `List Nat` with every element `< 256`; Go strings are
  Lean `String`s, and `[]byte(s)` is `strBytes s` (the UTF-8 bytes).
* The process-wide pseudo-random source `randSrc` is an explicit stream
  `src : Nat → Nat` of 63-bit draws together with a draw index; calling
  `randSrc.Int63()` reads `src idx % 2 ^ 63` and advances the index.
* The generation loop of `generateMathRandomBytes` terminates only with
  probability one in Go (an adversarial bit source could starve it), so it
  is embedded with an explicit fuel parameter and an `Option` result; a
  redraw is modelled as its own fuel step, which changes nothing observable.
* `http.ResponseWriter` is a `Response` record; `Header().Set` replaces all
  values of a key, `Header().Add` appends, and `http.SetCookie` appends a
  structured cookie to the `cookies` field (it stands for the `Set-Cookie`
  response header entries).
* Mutation of the `DoubleSubmit` receiver by `SetSecure`/`SetErrHandler`
  becomes a functional record update.
-/

/-! ## Constants from csrf.go -/

/-- `tokenLen = 32`: default token length in bytes. -/
def tokenLen : Nat := 32

/-- `headerName = "X-CSRF-Token"`: the inspected request header and cookie name. -/
def headerName : String := "X-CSRF-Token"

/-- `expiration = 60`: default cookie expiration in minutes. -/
def expiration : Int := 60

/-! ## token.go: constant-time comparison -/

/-- Bytes of the Go string `s`, i.e. the value of `[]byte(s)` (UTF-8). -/
def strBytes (s : String) : List Nat :=
  s.toUTF8.data.toList.map UInt8.toNat

/-- `crypto/subtle.ConstantTimeByteEq(x, y)`: `int((uint32(x^y) - 1) >> 31)`.
The `uint32` subtraction wraps, which over `Nat` is `(v + 2^32 - 1) % 2^32`. -/
def constantTimeByteEq (x y : Nat) : Nat :=
  ((x ^^^ y) + (2 ^ 32 - 1)) % 2 ^ 32 / 2 ^ 31

/-- `crypto/subtle.ConstantTimeCompare(x, y)`: `0` when the lengths differ,
otherwise it ORs together the XORs of corresponding bytes and compares the
accumulator with zero byte-equality style. -/
def constantTimeCompare (x y : List Nat) : Nat :=
  if x.length ≠ y.length then 0
  else constantTimeByteEq ((x.zip y).foldl (fun v p => v ||| (p.1 ^^^ p.2)) 0) 0

/-- `isEqual(a, b string) bool`:
`subtle.ConstantTimeCompare([]byte(a), []byte(b)) == 1`. -/
def isEqual (a b : String) : Bool :=
  constantTimeCompare (strBytes a) (strBytes b) == 1

/-! ## csrf.go: safe-method classification -/

/-- `isSafe(method)`: true for the four read-only HTTP methods. -/
def isSafe (method : String) : Bool :=
  method == "GET" || method == "HEAD" || method == "OPTIONS" || method == "TRACE"

/-! ## token.go: pseudo-random byte generation -/

/-- `letterBytes`: the 52-letter alphabet, as its byte values. -/
def letterBytes : List Nat :=
  "abcdefghijklmnopqrstuvwxyzABCDEFGHIJKLMNOPQRSTUVWXYZ".toList.map Char.toNat

/-- `letterIdxBits = 6`: bits to represent a letter index. -/
def letterIdxBits : Nat := 6

/-- `letterIdxMask = 1<<letterIdxBits - 1`. -/
def letterIdxMask : Nat := 2 ^ letterIdxBits - 1

/-- `letterIdxMax = 63 / letterIdxBits`: letter indices per 63-bit draw. -/
def letterIdxMax : Nat := 63 / letterIdxBits

/-- The filling loop of `generateMathRandomBytes`.  `draws` is the index of the
next unread draw of the source, `cache` the remaining bits of the current draw,
`remain` the number of 6-bit slices left in `cache`, `k` the number of bytes
still to produce (the Go loop index `i` equals `k - 1`; bytes are filled from
the high index down, hence the accumulator is extended at the front), and
`acc` the bytes produced so far.  A redraw (`remain = 0`) is modelled as a fuel
step of its own; the slice sequence consumed is exactly the Go one. -/
def genLoop (src : Nat → Nat) :
    Nat → Nat → Nat → Nat → Nat → List Nat → Option (List Nat × Nat)
  | 0, draws, _, _, k, acc => if k = 0 then some (acc, draws) else none
  | fuel + 1, draws, cache, remain, k, acc =>
    if k = 0 then some (acc, draws)
    else if remain = 0 then
      genLoop src fuel (draws + 1) (src draws % 2 ^ 63) letterIdxMax k acc
    else if h : cache &&& letterIdxMask < letterBytes.length then
      genLoop src fuel draws (cache >>> letterIdxBits) (remain - 1) (k - 1)
        (letterBytes[cache &&& letterIdxMask] :: acc)
    else
      genLoop src fuel draws (cache >>> letterIdxBits) (remain - 1) k acc

/-- `generateMathRandomBytes(n)`: one unconditional draw primes the cache, then
the loop fills `n` bytes.  Returns the bytes and the next draw index. -/
def generateMathRandomBytes (src : Nat → Nat) (n : Nat) (idx : Nat) (fuel : Nat) :
    Option (List Nat × Nat) :=
  genLoop src fuel (idx + 1) (src idx % 2 ^ 63) letterIdxMax n []

/-- The URL-safe base64 alphabet used by Go's `base64.URLEncoding`. -/
def base64urlChars : List Char :=
  "ABCDEFGHIJKLMNOPQRSTUVWXYZabcdefghijklmnopqrstuvwxyz0123456789-_".toList

/-- Character of the URL-safe base64 alphabet at a 6-bit index. -/
def b64Char (i : Nat) : Char := base64urlChars.getD i 'A'

/-- `base64.URLEncoding.EncodeToString`: standard base64 over the URL-safe
alphabet, with `=` padding. -/
def base64urlEncode : List Nat → List Char
  | [] => []
  | [b1] => [b64Char (b1 / 4), b64Char (b1 % 4 * 16), '=', '=']
  | [b1, b2] => [b64Char (b1 / 4), b64Char (b1 % 4 * 16 + b2 / 16), b64Char (b2 % 16 * 4), '=']
  | b1 :: b2 :: b3 :: rest =>
    b64Char (b1 / 4) :: b64Char (b1 % 4 * 16 + b2 / 16) ::
      b64Char (b2 % 16 * 4 + b3 / 64) :: b64Char (b3 % 64) :: base64urlEncode rest

/-- `generateToken(length)`: URL-safe base64 encoding of
`generateMathRandomBytes(length)`. -/
def generateToken (src : Nat → Nat) (length : Nat) (idx : Nat) (fuel : Nat) :
    Option (String × Nat) :=
  match generateMathRandomBytes src length idx fuel with
  | none => none
  | some (randomBytes, idx2) => some (String.mk (base64urlEncode randomBytes), idx2)

/-! ## csrf.go: the HTTP data model and the middleware -/

/-- The parts of `*http.Request` the middleware reads: the method,
`r.Header.Get(headerName)` (the empty string when the header is absent), and
`r.Cookie(headerName)` (`none` exactly when the cookie is absent). -/
structure Request where
  method : String
  headerToken : String
  cookie : Option String
deriving DecidableEq

/-- The fields of `http.Cookie` this package sets. -/
structure Cookie where
  name : String
  value : String
  maxAge : Int
  httpOnly : Bool
  secure : Bool
  domain : String
deriving DecidableEq

/-- The observable response state: status, body, header multimap
(`Header().Set` replaces, `Header().Add` appends), and the structured
`Set-Cookie` entries added through `http.SetCookie`. -/
structure Response where
  status : Nat
  body : String
  headers : List (String × String)
  cookies : List Cookie
deriving DecidableEq

/-- `Header().Set(name, v)`: drop all values of `name`, keep one. -/
def headerSet (hs : List (String × String)) (name v : String) : List (String × String) :=
  hs.filter (fun p => p.1 != name) ++ [(name, v)]

/-- `Header().Add(name, v)`: append a value for `name`. -/
def headerAdd (hs : List (String × String)) (name v : String) : List (String × String) :=
  hs ++ [(name, v)]

/-- All values of a header key, in order. -/
def headerValues (hs : List (String × String)) (name : String) : List String :=
  (hs.filter (fun p => p.1 == name)).map Prod.snd

/-- `ErrInvalidToken` is the only error value of the package. -/
inductive CsrfErr
  | invalidToken
deriving DecidableEq

/-- `ErrorHandler func(http.ResponseWriter, *http.Request, error)`. -/
abbrev ErrorHandler : Type := Response → Request → CsrfErr → Response

/-- `unauthorizedHandler`: `http.Error` with status 403 and body
`"Forbidden - invalid token"` (plus the trailing newline `http.Error` adds). -/
def unauthorizedHandler : ErrorHandler := fun w _r _reason =>
  { w with
    status := 403
    body := "Forbidden - invalid token\n"
    headers :=
      headerSet (headerSet w.headers "Content-Type" "text/plain; charset=utf-8")
        "X-Content-Type-Options" "nosniff" }

/-- `DoubleSubmit`: the middleware record of `csrf.go` (fields `next`, `err`,
`secure`). -/
structure DoubleSubmit where
  next : Response → Request → Response
  err : ErrorHandler
  secure : Bool

/-- `New(h)`: downstream handler `h`, the built-in 403 error handler, and
`secure = false`. -/
def New (h : Response → Request → Response) : DoubleSubmit :=
  { next := h, err := unauthorizedHandler, secure := false }

/-- `SetSecure`: setter for the `secure` attribute (receiver mutation as a
functional update). -/
def SetSecure (ds : DoubleSubmit) (st : Bool) : DoubleSubmit :=
  { ds with secure := st }

/-- `SetErrHandler`: setter for the `err` attribute. -/
def SetErrHandler (ds : DoubleSubmit) (h : ErrorHandler) : DoubleSubmit :=
  { ds with err := h }

/-- Lines 82–92 of `ServeHTTP`: set the fresh token as the response header,
append the token cookie (`MaxAge: expiration * 60`, `HttpOnly: true`,
`Secure: ds.secure`), and `Add` the value `Cookie` to the `Vary` header. -/
def rotateResponse (ds : DoubleSubmit) (newToken : String) (w : Response) : Response :=
  let w1 := { w with headers := headerSet w.headers headerName newToken }
  let w2 := { w1 with cookies := w1.cookies ++
    [({ name := headerName, value := newToken, maxAge := expiration * 60,
        httpOnly := true, secure := ds.secure, domain := "" } : Cookie)] }
  { w2 with headers := headerAdd w2.headers "Vary" "Cookie" }

/-- The body of `ServeHTTP` after `newToken` has been generated.  For a
non-safe method: reject when the header token is empty or the cookie is
absent, then reject when `isEqual` fails; otherwise (and for safe methods)
rotate the token and forward to `ds.next`. -/
def ServeHTTPCore (ds : DoubleSubmit) (newToken : String) (w : Response) (r : Request) :
    Response :=
  if !isSafe r.method && (r.headerToken == "" || r.cookie.isNone) then
    ds.err w r CsrfErr.invalidToken
  else if !isSafe r.method && !isEqual r.headerToken (r.cookie.getD "") then
    ds.err w r CsrfErr.invalidToken
  else
    ds.next (rotateResponse ds newToken w) r

/-- `ServeHTTP`: generate `newToken` (always, before the method is looked at),
then run the decision body.  The draw index is threaded explicitly. -/
def ServeHTTP (ds : DoubleSubmit) (src : Nat → Nat) (fuel : Nat)
    (w : Response) (r : Request) (idx : Nat) : Option (Response × Nat) :=
  match generateToken src tokenLen idx fuel with
  | none => none
  | some (newToken, idx2) => some (ServeHTTPCore ds newToken w r, idx2)

/-! ## options.go (`src/unnamed/part_001`): the functional-options variant -/

/-- The option fields of the options-variant `DoubleSubmit`, as read and
written by `options.go` and its test (`cs.opts.MaxAge`, `cs.opts.Domain`,
`cs.opts.Secure`, `cs.opts.ErrHandler`, `cs.opts.RequestHeader`,
`cs.opts.CookieName`).  Go zero values: `0`, `""`, `false`, nil (`none`). -/
structure CookieOpts where
  MaxAge : Int
  Domain : String
  Secure : Bool
  ErrHandler : Option ErrorHandler
  RequestHeader : String
  CookieName : String

/-- The options-variant middleware record: wrapped handler `h` plus `opts`. -/
structure DoubleSubmitOpts where
  h : Response → Request → Response
  opts : CookieOpts

/-- `Option func(*DoubleSubmit)` of `options.go` (named apart from Lean's
`Option`). -/
abbrev CsrfOption : Type := DoubleSubmitOpts → DoubleSubmitOpts

/-- `MaxAge(age)`: stores the age, supplied in minutes, as `age * 60` seconds. -/
def MaxAge (age : Int) : CsrfOption := fun ds =>
  { ds with opts := { ds.opts with MaxAge := age * 60 } }

/-- `Domain(domain)`: sets the cookie domain. -/
def Domain (domain : String) : CsrfOption := fun ds =>
  { ds with opts := { ds.opts with Domain := domain } }

/-- `Secure(s)`: sets the cookie `Secure` flag. -/
def Secure (s : Bool) : CsrfOption := fun ds =>
  { ds with opts := { ds.opts with Secure := s } }

/-- `ErrHandler(h)`: replaces the rejection callback. -/
def ErrHandler (h : ErrorHandler) : CsrfOption := fun ds =>
  { ds with opts := { ds.opts with ErrHandler := some h } }

/-- `RequestHeader(header)`: changes the inspected request header. -/
def RequestHeader (header : String) : CsrfOption := fun ds =>
  { ds with opts := { ds.opts with RequestHeader := header } }

/-- `CookieName(name)`: changes the name of the issued cookie. -/
def CookieName (name : String) : CsrfOption := fun ds =>
  { ds with opts := { ds.opts with CookieName := name } }

/-- `parseOptions(h, opts...)`: start from the zero value with `Secure = true`,
then apply the options in order (later options override earlier ones). -/
def parseOptions (h : Response → Request → Response) (opts : List CsrfOption) :
    DoubleSubmitOpts :=
  opts.foldl (fun ds o => o ds)
    { h := h
      opts := { MaxAge := 0, Domain := "", Secure := true, ErrHandler := none,
                RequestHeader := "", CookieName := "" } }

/-- Modelled from the spec: the request handler of the options-configured
variant (the `Middleware` handler) is not among the source files — only
`options.go` and the tests that call it are.  Per §4.3 step 3 of the spec, its
rotation step sets a response cookie carrying the fresh token with the
configured `CookieName`, `HttpOnly` always set, `Secure` per configuration,
`Domain` per configuration, and `MaxAge` per configuration. -/
def emitOptsCookie (ds : DoubleSubmitOpts) (newToken : String) : Cookie :=
  { name := ds.opts.CookieName, value := newToken, maxAge := ds.opts.MaxAge,
    httpOnly := true, secure := ds.opts.Secure, domain := ds.opts.Domain }

/-! ## Concrete fixtures used by witnesses and counterexamples -/

/-- A downstream handler that returns the response unchanged. -/
def rwId : Response → Request → Response := fun w _ => w

/-- A fresh response recorder. -/
def wEx : Response := { status := 200, body := "", headers := [], cookies := [] }

/-- A POST request carrying neither a token header nor a cookie. -/
def rPostEx : Request := { method := "POST", headerToken := "", cookie := none }

/-- A GET request carrying neither a token header nor a cookie. -/
def rGetEx : Request := { method := "GET", headerToken := "", cookie := none }

/-- The token generated from the all-zero draw stream. -/
def tokEx : String := String.mk (base64urlEncode (List.replicate tokenLen 97))

/-! ## Lemmas about the constant-time comparison -/

lemma lor_eq_zero_iff (a b : Nat) : a ||| b = 0 ↔ a = 0 ∧ b = 0 := by
  constructor
  · intro h
    have ha : a = 0 := by
      apply Nat.eq_of_testBit_eq
      intro i
      have hbit := congrArg (fun n => Nat.testBit n i) h
      simp only [Nat.testBit_or, Nat.zero_testBit, Bool.or_eq_false_iff] at hbit
      simp [hbit.1]
    have hb : b = 0 := by
      apply Nat.eq_of_testBit_eq
      intro i
      have hbit := congrArg (fun n => Nat.testBit n i) h
      simp only [Nat.testBit_or, Nat.zero_testBit, Bool.or_eq_false_iff] at hbit
      simp [hbit.2]
    exact ⟨ha, hb⟩
  · rintro ⟨rfl, rfl⟩
    simp

lemma foldl_lor_xor_eq_zero (l : List (Nat × Nat)) :
    ∀ v : Nat, l.foldl (fun v p => v ||| (p.1 ^^^ p.2)) v = 0 ↔
      v = 0 ∧ ∀ p ∈ l, p.1 = p.2 := by
  induction l with
  | nil => intro v; simp
  | cons q l ih =>
      intro v
      rw [List.foldl_cons, ih]
      rw [lor_eq_zero_iff, Nat.xor_eq_zero]
      constructor
      · rintro ⟨⟨hv, hq⟩, hl⟩
        exact ⟨hv, by simpa [hq] using hl⟩
      · rintro ⟨hv, hl⟩
        exact ⟨⟨hv, hl q (List.mem_cons_self q l)⟩,
          fun p hp => hl p (List.mem_cons_of_mem q hp)⟩

lemma foldl_lor_xor_lt (l : List (Nat × Nat)) :
    ∀ v : Nat, v < 2 ^ 8 → (∀ p ∈ l, p.1 < 2 ^ 8 ∧ p.2 < 2 ^ 8) →
      l.foldl (fun v p => v ||| (p.1 ^^^ p.2)) v < 2 ^ 8 := by
  induction l with
  | nil => intro v hv _; simpa using hv
  | cons q l ih =>
      intro v hv hl
      rw [List.foldl_cons]
      apply ih
      · exact Nat.or_lt_two_pow hv
          (Nat.xor_lt_two_pow (hl q (List.mem_cons_self q l)).1
            (hl q (List.mem_cons_self q l)).2)
      · exact fun p hp => hl p (List.mem_cons_of_mem q hp)

lemma constantTimeByteEq_zero (v : Nat) (h : v < 2 ^ 8) :
    constantTimeByteEq v 0 = if v = 0 then 1 else 0 := by
  unfold constantTimeByteEq
  rw [Nat.xor_zero]
  rcases Nat.eq_zero_or_pos v with hv | hv
  · subst hv; norm_num
  · have hone : ¬ v = 0 := Nat.pos_iff_ne_zero.mp hv
    rw [if_neg hone]
    have hsplit : v + (2 ^ 32 - 1) = (v - 1) + 1 * 2 ^ 32 := by omega
    rw [hsplit, Nat.add_mul_mod_self_right, Nat.mod_eq_of_lt (by omega)]
    exact Nat.div_eq_of_lt (by omega)

lemma zip_forall_eq : ∀ x y : List Nat, x.length = y.length →
    ((∀ p ∈ x.zip y, p.1 = p.2) ↔ x = y) := by
  intro x
  induction x with
  | nil =>
      intro y hy
      cases y with
      | nil => simp
      | cons b bs => simp at hy
  | cons a xs ih =>
      intro y hy
      cases y with
      | nil => simp at hy
      | cons b bs =>
          simp only [List.zip_cons_cons, List.mem_cons, List.cons.injEq]
          constructor
          · intro hall
            refine ⟨hall (a, b) (Or.inl rfl), ?_⟩
            exact (ih bs (by simpa using hy)).mp fun p hp => hall p (Or.inr hp)
          · rintro ⟨rfl, rfl⟩
            rintro p (rfl | hp)
            · rfl
            · exact ((ih xs rfl).mpr rfl) p hp

lemma constantTimeCompare_eq_one_iff (x y : List Nat)
    (hx : ∀ b ∈ x, b < 2 ^ 8) (hy : ∀ b ∈ y, b < 2 ^ 8) :
    constantTimeCompare x y = 1 ↔ x = y := by
  unfold constantTimeCompare
  by_cases hlen : x.length = y.length
  · rw [if_neg (by simpa using hlen)]
    have hmem : ∀ p ∈ x.zip y, p.1 < 2 ^ 8 ∧ p.2 < 2 ^ 8 := by
      rintro ⟨a, b⟩ hp
      have hab := List.of_mem_zip hp
      exact ⟨hx a hab.1, hy b hab.2⟩
    have hvlt : (x.zip y).foldl (fun v p => v ||| (p.1 ^^^ p.2)) 0 < 2 ^ 8 :=
      foldl_lor_xor_lt (x.zip y) 0 (by norm_num) hmem
    rw [constantTimeByteEq_zero _ hvlt]
    by_cases hz : (x.zip y).foldl (fun v p => v ||| (p.1 ^^^ p.2)) 0 = 0
    · rw [if_pos hz]
      have hall := ((foldl_lor_xor_eq_zero (x.zip y) 0).mp hz).2
      simp [(zip_forall_eq x y hlen).mp hall]
    · rw [if_neg hz]
      have hner : ¬ x = y := by
        intro hxy
        exact hz ((foldl_lor_xor_eq_zero (x.zip y) 0).mpr
          ⟨rfl, (zip_forall_eq x y hlen).mpr hxy⟩)
      simp [hner]
  · rw [if_pos (by simpa using hlen)]
    have hner : ¬ x = y := fun hxy => hlen (by rw [hxy])
    simp [hner]

lemma strBytes_lt (s : String) : ∀ b ∈ strBytes s, b < 2 ^ 8 := by
  intro b hb
  unfold strBytes at hb
  rcases List.mem_map.mp hb with ⟨u, _, rfl⟩
  exact u.toNat_lt_size

/-! ## Lemmas about token generation -/

lemma genLoop_spec (src : Nat → Nat) :
    ∀ fuel draws cache remain k acc bs i,
      genLoop src fuel draws cache remain k acc = some (bs, i) →
      bs.length = k + acc.length ∧ (∀ b ∈ bs, b ∈ letterBytes ∨ b ∈ acc) ∧ draws ≤ i := by
  intro fuel
  induction fuel with
  | zero =>
      intro draws cache remain k acc bs i h
      rw [genLoop] at h
      by_cases hk : k = 0
      · rw [if_pos hk] at h
        obtain ⟨rfl, rfl⟩ : acc = bs ∧ draws = i := by
          simpa using h
        exact ⟨by simp [hk], fun b hb => Or.inr hb, Nat.le_refl _⟩
      · rw [if_neg hk] at h
        exact absurd h (by simp)
  | succ fuel ih =>
      intro draws cache remain k acc bs i h
      rw [genLoop] at h
      by_cases hk : k = 0
      · rw [if_pos hk] at h
        obtain ⟨rfl, rfl⟩ : acc = bs ∧ draws = i := by
          simpa using h
        exact ⟨by simp [hk], fun b hb => Or.inr hb, Nat.le_refl _⟩
      · rw [if_neg hk] at h
        by_cases hr : remain = 0
        · rw [if_pos hr] at h
          obtain ⟨hlen, hmem, hle⟩ := ih _ _ _ _ _ _ _ h
          exact ⟨hlen, hmem, by omega⟩
        · rw [if_neg hr] at h
          by_cases hidx : cache &&& letterIdxMask < letterBytes.length
          · rw [dif_pos hidx] at h
            obtain ⟨hlen, hmem, hle⟩ := ih _ _ _ _ _ _ _ h
            refine ⟨by simp at hlen; omega, ?_, hle⟩
            intro b hb
            rcases hmem b hb with hlb | hcons
            · exact Or.inl hlb
            · rcases List.mem_cons.mp hcons with rfl | hacc
              · exact Or.inl (List.getElem_mem hidx)
              · exact Or.inr hacc
          · rw [dif_neg hidx] at h
            exact ih _ _ _ _ _ _ _ h

lemma generateMathRandomBytes_spec (src : Nat → Nat) (n idx fuel : Nat)
    (bs : List Nat) (i : Nat)
    (h : generateMathRandomBytes src n idx fuel = some (bs, i)) :
    bs.length = n ∧ (∀ b ∈ bs, b ∈ letterBytes) ∧ idx + 1 ≤ i := by
  obtain ⟨hlen, hmem, hle⟩ := genLoop_spec src _ _ _ _ _ _ _ _ h
  refine ⟨by simpa using hlen, ?_, hle⟩
  intro b hb
  rcases hmem b hb with hlb | hnil
  · exact hlb
  · exact absurd hnil (List.not_mem_nil b)

lemma base64urlEncode_ne_nil (bs : List Nat) (h : bs ≠ []) :
    base64urlEncode bs ≠ [] := by
  match bs with
  | [] => exact absurd rfl h
  | [b1] => simp [base64urlEncode]
  | [b1, b2] => simp [base64urlEncode]
  | b1 :: b2 :: b3 :: rest => simp [base64urlEncode]

lemma mk_ne_empty (cs : List Char) (h : cs ≠ []) : String.mk cs ≠ "" := by
  intro heq
  exact h (by simpa using congrArg String.data heq)

/-! ## Lemmas about the header multimap -/

lemma headerValues_append (hs hs2 : List (String × String)) (name : String) :
    headerValues (hs ++ hs2) name = headerValues hs name ++ headerValues hs2 name := by
  simp [headerValues, List.filter_append]

lemma headerValues_headerSet_self (hs : List (String × String)) (name v : String) :
    headerValues (headerSet hs name v) name = [v] := by
  unfold headerSet
  rw [headerValues_append]
  have hnil : headerValues (hs.filter (fun p => p.1 != name)) name = [] := by
    unfold headerValues
    rw [List.filter_filter]
    have : ∀ p ∈ hs, ¬ ((p.1 == name) && (p.1 != name)) = true := by
      intro p _
      by_cases hp : p.1 = name <;> simp [hp]
    simp [List.filter_eq_nil_iff.mpr this]
  rw [hnil]
  simp [headerValues]

lemma headerValues_headerSet_ne (hs : List (String × String)) (name nm v : String)
    (hne : nm ≠ name) :
    headerValues (headerSet hs name v) nm = headerValues hs nm := by
  unfold headerSet
  rw [headerValues_append]
  have hone : headerValues [(name, v)] nm = [] := by
    simp [headerValues, Ne.symm hne]
  rw [hone, List.append_nil]
  unfold headerValues
  rw [List.filter_filter]
  congr 1
  apply List.filter_congr
  intro p _
  by_cases hp : p.1 = nm
  · have : p.1 ≠ name := by rw [hp]; exact hne
    simp only [hp, this]
    simp [hne]
  · simp [hp]

lemma headerValues_headerAdd_self (hs : List (String × String)) (name v : String) :
    headerValues (headerAdd hs name v) name = headerValues hs name ++ [v] := by
  unfold headerAdd
  rw [headerValues_append]
  simp [headerValues]

lemma rotateResponse_def (ds : DoubleSubmit) (tok : String) (w : Response) :
    rotateResponse ds tok w =
      { status := w.status
        body := w.body
        headers := headerAdd (headerSet w.headers headerName tok) "Vary" "Cookie"
        cookies := w.cookies ++
          [({ name := headerName, value := tok, maxAge := expiration * 60,
              httpOnly := true, secure := ds.secure, domain := "" } : Cookie)] } := rfl

/-! ## The claims -/

/-- C1: for a request whose method is not safe, `ServeHTTP` rejects exactly
when the header token is empty, or the cookie is absent, or the two
client-supplied values are unequal under the constant-time comparison.  On
rejection it returns the configured error handler applied to the untouched
response, the request and `ErrInvalidToken` — whatever the downstream handler
is, so the downstream handler is not invoked and no token header or cookie has
been set.  When header and cookie are present and equal it rotates a token and
forwards to the downstream handler. -/
theorem claim1_unsafe_validation (ds : DoubleSubmit) (tok : String) (w : Response)
    (r : Request) (hSafe : isSafe r.method = false) :
    ((r.headerToken = "" ∨ r.cookie = none ∨
        isEqual r.headerToken (r.cookie.getD "") = false) →
      ∀ nx : Response → Request → Response,
        ServeHTTPCore { ds with next := nx } tok w r = ds.err w r CsrfErr.invalidToken)
    ∧ ((r.headerToken ≠ "" ∧ ∃ cv, r.cookie = some cv ∧ isEqual r.headerToken cv = true) →
      ServeHTTPCore ds tok w r = ds.next (rotateResponse ds tok w) r) := by
  constructor
  · intro hrej nx
    rcases hrej with hh | hc | hne
    · simp [ServeHTTPCore, hSafe, hh]
    · simp [ServeHTTPCore, hSafe, hc]
    · by_cases h1 : (r.headerToken == "" || r.cookie.isNone) = true
      · simp [ServeHTTPCore, hSafe, h1]
      · simp [ServeHTTPCore, hSafe, h1, hne]
  · rintro ⟨hh, cv, hcv, heq⟩
    simp [ServeHTTPCore, hSafe, hh, hcv, heq]

/-- C1 witness: the guard built by `New` rejects a POST request that carries
neither header token nor cookie. -/
theorem claim1_witness :
    ServeHTTPCore (New rwId) "t" wEx rPostEx = (New rwId).err wEx rPostEx CsrfErr.invalidToken :=
  (claim1_unsafe_validation (New rwId) "t" wEx rPostEx (by decide)).1
    (Or.inl rfl) (New rwId).next

/-- C2 counterexample: running the full `ServeHTTP` pipeline on a rejected
POST (no token header, no cookie) emits a response that carries no value for
the token header and no cookie at all, refuting the invariant that *every*
emitted response carries a fresh token pair. -/
theorem claim2_counterexample :
    ServeHTTP (New rwId) (fun _ => 0) 40 wEx rPostEx 0 =
      some (ServeHTTPCore (New rwId) tokEx wEx rPostEx, 4)
    ∧ headerValues (ServeHTTPCore (New rwId) tokEx wEx rPostEx).headers headerName = []
    ∧ (ServeHTTPCore (New rwId) tokEx wEx rPostEx).cookies = [] :=
  ⟨by decide, by decide, by decide⟩

/-- C2 as amended: every response that the guard hands to the *downstream*
handler — i.e. every response emitted on the safe-method path or on the
successfully-validated path — carries the newly generated token both as the
value of the token header and in an appended cookie; rejected requests are
answered by the error handler from the response the guard has not touched. -/
theorem claim2_amended_rotation_paths (ds : DoubleSubmit) (tok : String)
    (w : Response) (r : Request)
    (h : isSafe r.method = true ∨
      (r.headerToken ≠ "" ∧ ∃ cv, r.cookie = some cv ∧ isEqual r.headerToken cv = true)) :
    ServeHTTPCore ds tok w r = ds.next (rotateResponse ds tok w) r
    ∧ headerValues (rotateResponse ds tok w).headers headerName = [tok]
    ∧ ∃ c, c ∈ (rotateResponse ds tok w).cookies ∧ c.name = headerName ∧ c.value = tok := by
  refine ⟨?_, ?_, ?_⟩
  · rcases h with hsafe | ⟨hh, cv, hcv, heq⟩
    · simp [ServeHTTPCore, hsafe]
    · by_cases hsafe : isSafe r.method = true
      · simp [ServeHTTPCore, hsafe]
      · have hfalse : isSafe r.method = false := by
          revert hsafe; cases isSafe r.method <;> simp
        simp [ServeHTTPCore, hfalse, hh, hcv, heq]
  · rw [rotateResponse_def]
    show headerValues (headerAdd (headerSet w.headers headerName tok) "Vary" "Cookie")
      headerName = [tok]
    unfold headerAdd
    rw [headerValues_append, headerValues_headerSet_self]
    simp [headerValues, show (("Vary" : String) == headerName) = false from by decide]
  · rw [rotateResponse_def]
    refine ⟨_, List.mem_append_right _ (List.mem_singleton.mpr rfl), ?_, ?_⟩ <;> rfl

/-- C2 witness: on a safe GET the guard forwards the rotated response, which
carries the fresh token as header value and cookie. -/
theorem claim2_witness :
    ServeHTTPCore (New rwId) "t" wEx rGetEx =
      (New rwId).next (rotateResponse (New rwId) "t" wEx) rGetEx
    ∧ headerValues (rotateResponse (New rwId) "t" wEx).headers headerName = ["t"]
    ∧ ∃ c, c ∈ (rotateResponse (New rwId) "t" wEx).cookies
        ∧ c.name = headerName ∧ c.value = "t" :=
  claim2_amended_rotation_paths (New rwId) "t" wEx rGetEx (Or.inl (by decide))

/-- C3: `isEqual` returns true exactly when its two arguments are byte-for-byte
equal (`[]byte(a) = []byte(b)`); in particular it is false whenever the byte
lengths differ or any byte differs. -/
theorem claim3_isEqual_iff_byte_equal (a b : String) :
    isEqual a b = true ↔ strBytes a = strBytes b := by
  unfold isEqual
  rw [beq_iff_eq]
  exact constantTimeCompare_eq_one_iff _ _ (strBytes_lt a) (strBytes_lt b)

/-- C4: `isSafe` is true exactly on the four strings GET, HEAD, OPTIONS and
TRACE, under case-sensitive exact match, and false on every other string. -/
theorem claim4_isSafe_characterization (m : String) :
    isSafe m = true ↔ (m = "GET" ∨ m = "HEAD" ∨ m = "OPTIONS" ∨ m = "TRACE") := by
  simp [isSafe, Bool.or_eq_true, beq_iff_eq, or_assoc]

/-- C5: whenever `generateMathRandomBytes(n)` returns, it returns exactly `n`
bytes, each one a byte of the 52-letter alphabet (lowercase and uppercase
Latin letters only), and `generateToken(n)` is the URL-safe base64 encoding of
that byte array; for `n = 0` the array is empty and the token is the empty
string, and for `n > 0` the token is non-empty. -/
theorem claim5_generate_spec (src : Nat → Nat) (n idx fuel : Nat)
    (bs : List Nat) (i : Nat)
    (h : generateMathRandomBytes src n idx fuel = some (bs, i)) :
    bs.length = n ∧ (∀ b ∈ bs, b ∈ letterBytes) ∧ letterBytes.length = 52
    ∧ generateToken src n idx fuel = some (String.mk (base64urlEncode bs), i)
    ∧ (n = 0 → bs = [] ∧ String.mk (base64urlEncode bs) = "")
    ∧ (0 < n → String.mk (base64urlEncode bs) ≠ "") := by
  obtain ⟨hlen, hmem, _⟩ := generateMathRandomBytes_spec src n idx fuel bs i h
  refine ⟨hlen, hmem, by decide, ?_, ?_, ?_⟩
  · unfold generateToken
    rw [h]
  · intro hn
    subst hn
    have hbs : bs = [] := List.length_eq_zero.mp hlen
    subst hbs
    exact ⟨rfl, by decide⟩
  · intro hn
    have hne : bs ≠ [] := by
      intro hb
      subst hb
      simp at hlen
      omega
    exact mk_ne_empty _ (base64urlEncode_ne_nil bs hne)

/-- C5 witness: four bytes from the all-zero stream are four alphabet letters
and encode to a non-empty token. -/
theorem claim5_witness :
    ([97, 97, 97, 97] : List Nat).length = 4
    ∧ (∀ b ∈ ([97, 97, 97, 97] : List Nat), b ∈ letterBytes)
    ∧ letterBytes.length = 52
    ∧ generateToken (fun _ => 0) 4 0 4 =
        some (String.mk (base64urlEncode [97, 97, 97, 97]), 1)
    ∧ ((4 : Nat) = 0 → ([97, 97, 97, 97] : List Nat) = []
        ∧ String.mk (base64urlEncode [97, 97, 97, 97]) = "")
    ∧ ((0 : Nat) < 4 → String.mk (base64urlEncode [97, 97, 97, 97]) ≠ "") :=
  claim5_generate_spec (fun _ => 0) 4 0 4 [97, 97, 97, 97] 1 (by decide)

/-- C6: the rotation step sets the fresh token as the (replaced) value of the
token response header, appends a cookie with that token whose `HttpOnly` flag
is always set, whose `Secure` flag equals the configured flag and whose
`MaxAge` is the configured lifetime in seconds (3600 by default), and appends
`Cookie` to the `Vary` header, preserving pre-existing `Vary` values. -/
theorem claim6_rotation_cookie_and_vary (ds : DoubleSubmit) (tok : String) (w : Response) :
    headerValues (rotateResponse ds tok w).headers headerName = [tok]
    ∧ (rotateResponse ds tok w).cookies = w.cookies ++
        [({ name := headerName, value := tok, maxAge := expiration * 60,
            httpOnly := true, secure := ds.secure, domain := "" } : Cookie)]
    ∧ expiration * 60 = (3600 : Int)
    ∧ headerValues (rotateResponse ds tok w).headers "Vary" =
        headerValues w.headers "Vary" ++ ["Cookie"]
    ∧ "Cookie" ∈ headerValues (rotateResponse ds tok w).headers "Vary" := by
  have hne : ("Vary" : String) ≠ headerName := by decide
  have hvary : headerValues (rotateResponse ds tok w).headers "Vary" =
      headerValues w.headers "Vary" ++ ["Cookie"] := by
    rw [rotateResponse_def]
    show headerValues (headerAdd (headerSet w.headers headerName tok) "Vary" "Cookie")
      "Vary" = headerValues w.headers "Vary" ++ ["Cookie"]
    rw [headerValues_headerAdd_self, headerValues_headerSet_ne _ _ _ _ hne]
  refine ⟨?_, ?_, by decide, hvary, ?_⟩
  · rw [rotateResponse_def]
    show headerValues (headerAdd (headerSet w.headers headerName tok) "Vary" "Cookie")
      headerName = [tok]
    unfold headerAdd
    rw [headerValues_append, headerValues_headerSet_self]
    simp [headerValues, show (("Vary" : String) == headerName) = false from by decide]
  · rw [rotateResponse_def]
  · rw [hvary]
    exact List.mem_append_right _ (List.mem_singleton.mpr rfl)

/-- C7: the accept/reject decision of `ServeHTTP` never depends on the freshly
generated token: for any two token values (i.e. any two states of the
pseudo-random generator) the same branch is taken — either both runs return
the error handler's response on the untouched input, or both forward the
(respectively rotated) response downstream. -/
theorem claim7_decision_token_independent (ds : DoubleSubmit) (tok1 tok2 : String)
    (w : Response) (r : Request) :
    (ServeHTTPCore ds tok1 w r = ds.err w r CsrfErr.invalidToken
      ∧ ServeHTTPCore ds tok2 w r = ds.err w r CsrfErr.invalidToken)
    ∨ (ServeHTTPCore ds tok1 w r = ds.next (rotateResponse ds tok1 w) r
      ∧ ServeHTTPCore ds tok2 w r = ds.next (rotateResponse ds tok2 w) r) := by
  unfold ServeHTTPCore
  by_cases h1 : (!isSafe r.method && (r.headerToken == "" || r.cookie.isNone)) = true
  · left
    rw [if_pos h1, if_pos h1]
    exact ⟨rfl, rfl⟩
  · rw [if_neg h1, if_neg h1]
    by_cases h2 : (!isSafe r.method && !isEqual r.headerToken (r.cookie.getD "")) = true
    · left
      rw [if_pos h2, if_pos h2]
      exact ⟨rfl, rfl⟩
    · right
      rw [if_neg h2, if_neg h2]
      exact ⟨rfl, rfl⟩

/-- C8: `MaxAge(m)` stores the minute value multiplied by 60 into seconds, and
a configuration with overridden cookie name, domain and max age emits a cookie
carrying exactly those values; in particular `maxAge = 35` minutes yields a
cookie `Max-Age` of 2100 seconds. -/
theorem claim8_options_applied (h0 : Response → Request → Response) (m : Int)
    (name dom tok : String) :
    (∀ ds : DoubleSubmitOpts, (MaxAge m ds).opts.MaxAge = m * 60)
    ∧ (emitOptsCookie (parseOptions h0 [CookieName name, Domain dom, MaxAge m]) tok).maxAge
        = m * 60
    ∧ (emitOptsCookie (parseOptions h0 [CookieName name, Domain dom, MaxAge m]) tok).name
        = name
    ∧ (emitOptsCookie (parseOptions h0 [CookieName name, Domain dom, MaxAge m]) tok).domain
        = dom
    ∧ (35 : Int) * 60 = 2100 := by
  refine ⟨fun ds => rfl, rfl, rfl, rfl, by norm_num⟩

/-- C9 counterexample: `SetSecure` is a public operation that changes the
`secure` configuration field of an already-constructed guard, refuting
immutability of the configuration after construction. -/
theorem claim9_counterexample :
    (New rwId).secure = false ∧ (SetSecure (New rwId) true).secure = true ∧
      (SetSecure (New rwId) true).secure ≠ (New rwId).secure :=
  ⟨rfl, rfl, by decide⟩

/-- C9 as amended: the configuration of a constructed guard is mutable only
through the two public setters: `SetSecure` replaces exactly the `secure`
flag and `SetErrHandler` replaces exactly the error handler, each leaving
every other field of the guard unchanged. -/
theorem claim9_amended_setters_only (ds : DoubleSubmit) (st : Bool) (h : ErrorHandler) :
    (SetSecure ds st).secure = st
    ∧ (SetSecure ds st).next = ds.next
    ∧ (SetSecure ds st).err = ds.err
    ∧ (SetErrHandler ds h).err = h
    ∧ (SetErrHandler ds h).next = ds.next
    ∧ (SetErrHandler ds h).secure = ds.secure :=
  ⟨rfl, rfl, rfl, rfl, rfl, rfl⟩

/-- C10: every invocation of `ServeHTTP` performs exactly one `generateToken`
call before the method is classified: the draw index advances by at least one
63-bit draw, the advance equals that of a single `generateToken` call, the
advance is the same for every request (so rejected requests consume it too),
and on the empty-header rejection path the generated token is discarded — the
emitted response is the error handler's output on the untouched response. -/
theorem claim10_unconditional_generation (ds : DoubleSubmit) (src : Nat → Nat)
    (fuel : Nat) (w : Response) (r : Request) (idx : Nat) (w2 : Response) (i : Nat)
    (h : ServeHTTP ds src fuel w r idx = some (w2, i)) :
    idx + 1 ≤ i
    ∧ (∃ tok, generateToken src tokenLen idx fuel = some (tok, i)
        ∧ w2 = ServeHTTPCore ds tok w r)
    ∧ (∀ w3 r3, ∃ w4, ServeHTTP ds src fuel w3 r3 idx = some (w4, i))
    ∧ (isSafe r.method = false → r.headerToken = "" →
        w2 = ds.err w r CsrfErr.invalidToken) := by
  unfold ServeHTTP at h
  cases hg : generateToken src tokenLen idx fuel with
  | none =>
      rw [hg] at h
      exact absurd h (by simp)
  | some p =>
      obtain ⟨tok, i2⟩ := p
      rw [hg] at h
      obtain ⟨hw, hi⟩ : ServeHTTPCore ds tok w r = w2 ∧ i2 = i := by
        simpa using h
      rw [hi] at hg
      have hadv : idx + 1 ≤ i := by
        unfold generateToken at hg
        cases hgb : generateMathRandomBytes src tokenLen idx fuel with
        | none =>
            rw [hgb] at hg
            exact absurd hg (by simp)
        | some q =>
            obtain ⟨bs, j⟩ := q
            rw [hgb] at hg
            obtain ⟨-, hj⟩ : String.mk (base64urlEncode bs) = tok ∧ j = i := by
              simpa using hg
            exact hj ▸ (generateMathRandomBytes_spec src tokenLen idx fuel bs j hgb).2.2
      refine ⟨hadv, ⟨tok, by rw [hi], hw.symm⟩, ?_, ?_⟩
      · intro w3 r3
        refine ⟨ServeHTTPCore ds tok w3 r3, ?_⟩
        unfold ServeHTTP
        rw [hg]
      · intro hSafe hh
        rw [← hw]
        simp [ServeHTTPCore, hSafe, hh]

/-- C10 witness: with the all-zero draw stream, a GET invocation starting at
draw index 0 consumes exactly the four draws of one 32-byte token generation. -/
theorem claim10_witness :
    0 + 1 ≤ 4
    ∧ (∃ tok, generateToken (fun _ => 0) tokenLen 0 40 = some (tok, 4)
        ∧ ServeHTTPCore (New rwId) tokEx wEx rGetEx = ServeHTTPCore (New rwId) tok wEx rGetEx)
    ∧ (∀ w3 r3, ∃ w4, ServeHTTP (New rwId) (fun _ => 0) 40 w3 r3 0 = some (w4, 4))
    ∧ (isSafe rGetEx.method = false → rGetEx.headerToken = "" →
        ServeHTTPCore (New rwId) tokEx wEx rGetEx = (New rwId).err wEx rGetEx CsrfErr.invalidToken) :=
  claim10_unconditional_generation (New rwId) (fun _ => 0) 40 wEx rGetEx 0
    (ServeHTTPCore (New rwId) tokEx wEx rGetEx) 4 (by decide)
